import Mathlib

/-!
# wallet-lspd: the CLN node client and the LND HTLC interceptor adapter

A shallow embedding of `cln/cln_client.go`, `lightning/client.go` and
`lnd/interceptor.go`.

* Go strings are `String`, byte slices are `List UInt8`, unsigned machine
  integers are `Nat` (conversions that can truncate carry an explicit `%`).
* A Go `(value, error)` result is an `Except Error value`; where the source
  returns a value together with the error (`return 0, err`) the pair is kept.
* A Go `map[string]uint64` is an `AList` (association list without duplicate
  keys); `m[k] = v` is `AList.insert`, `_, ok := m[k]` is `AList.lookup`.
* Node RPCs are fields of the client structure; functions whose claims talk
  about the RPCs issued return the list of calls next to their result.
-/

namespace Lspd

/-! ## Shared types -/

/-- The type `basetypes.ShortChannelID`, a named `uint64`; the conversion `uint64(cid)` keeps the value. -/
abbrev ShortChannelID := Nat

/-- Go `error` values the embedded functions can return. -/
inductive Error where
  /-- An error returned by a node RPC or a library call, with its message. -/
  | rpc (msg : String)
  /-- The error returned by `basetypes.NewShortChannelIDFromString` on `input`. -/
  | parse (input : String)
  /-- The value `fmt.Errorf("no channel found")`. -/
  | noChannelFound
deriving DecidableEq, Repr

/-- Go map `map[string]uint64`. -/
abbrev GoMap := AList (fun _ : String => Nat)

/-- One hexadecimal digit of `encoding/hex` (lower case). -/
def hexDigit (n : Nat) : Char :=
  if n < 10 then Char.ofNat (48 + n) else Char.ofNat (87 + n)

/-- Go `hex.EncodeToString`. -/
def hexEncode (bs : List UInt8) : String :=
  String.mk (bs.flatMap fun b => [hexDigit (b.toNat / 16), hexDigit (b.toNat % 16)])

/-- The type `chainhash.Hash`: the bytes of a transaction hash. -/
structure Hash where
  bytes : List UInt8
deriving DecidableEq, Repr

/-- Method `chainhash.Hash.String`: the hexadecimal form of the byte-reversed hash. -/
def Hash.String (h : Hash) : String := hexEncode h.bytes.reverse

/-- The type `wire.OutPoint`. -/
structure OutPoint where
  Hash : Hash
  Index : Nat
deriving DecidableEq, Repr

/-! ## Short channel ids in text form

`basetypes.NewShortChannelIDFromString` is not among the sources. The client
functions below take the parser as an argument `parseScid`, so what is proved
about them in general holds for every parser; the definition here is used for
concrete inputs only. -/

/-- Split a character list at every `x`. -/
def splitOnX : List Char → List (List Char)
  | [] => [[]]
  | c :: cs =>
    if c = 'x' then [] :: splitOnX cs
    else
      match splitOnX cs with
      | [] => [[c]]
      | f :: fs => (c :: f) :: fs

/-- Read decimal digits onto an accumulator. -/
def parseDecimalAux : Nat → List Char → Option Nat
  | acc, [] => some acc
  | acc, c :: cs =>
    if c.isDigit then parseDecimalAux (acc * 10 + (c.toNat - 48)) cs else none

/-- Read a non-empty string of decimal digits. -/
def parseDecimal (cs : List Char) : Option Nat :=
  if cs = [] then none else parseDecimalAux 0 cs

/-- Modelled from the spec: the fields of a short channel id in text form.
`basetypes.NewShortChannelIDFromString` is missing from the sources; the spec
gives the text form `block x tx x out` ("short-channel-ids are strings to be
parsed") with "a conventional decomposition (block:tx:out)". The result is
the triple (block, tx, out) of the three decimal fields. -/
def scidFields (s : String) : Option (Nat × Nat × Nat) :=
  match splitOnX s.data with
  | [b, t, o] =>
    match parseDecimal b, parseDecimal t, parseDecimal o with
    | some b, some t, some o => some (b, t, o)
    | _, _, _ => none
  | _ => none

/-- Modelled from the spec: `basetypes.NewShortChannelIDFromString`, missing
from the sources. The spec calls the scid a "64-bit opaque identifier, with a
conventional decomposition (block:tx:out)"; the convention (BOLT 7) is three
bytes of block height, three bytes of transaction index and two bytes of
output index, most significant first. A string that is not three decimal
fields in these ranges does not parse. -/
def NewShortChannelIDFromString (s : String) : Option ShortChannelID :=
  match scidFields s with
  | some (b, t, o) =>
    if b < 2 ^ 24 ∧ t < 2 ^ 24 ∧ o < 2 ^ 16 then some (b * 2 ^ 40 + t * 2 ^ 16 + o) else none
  | none => none

/-! ## `lightning/client.go` -/

/-- The struct `lightning.GetChannelResult`. -/
structure GetChannelResult where
  InitialChannelID : ShortChannelID
  ConfirmedChannelID : ShortChannelID
deriving DecidableEq, Repr

/-- The struct `lightning.OpenChannelRequest`; `F` stands for `float64`. -/
structure OpenChannelRequest (F : Type) where
  Destination : List UInt8
  CapacitySat : Nat
  MinHtlcMsat : Nat
  IsPrivate : Bool
  IsZeroConf : Bool
  MinConfs : Option Nat
  FeeSatPerVByte : Option F
  TargetConf : Option Nat

/-! ## `cln/cln_client.go` -/

/-- The `alias` object of a peer channel in glightning. -/
structure ChannelAlias where
  Local : String
deriving DecidableEq, Repr

/-- The fields of `glightning.PeerChannel` the client reads. -/
structure PeerChannel where
  State : String
  ShortChannelId : String
  Alias : ChannelAlias
  FundingTxId : String
deriving DecidableEq, Repr

/-- The fields of `glightning.Peer` the client reads. -/
structure Peer where
  Channels : List PeerChannel
deriving DecidableEq, Repr

/-- The type `glightning.FeeDirective`. -/
inductive FeeDirective where
  | Normal
  | Urgent
  | Slow
deriving DecidableEq, Repr

/-- The type `glightning.FeeRateStyle`. -/
inductive FeeRateStyle where
  | PerKb
  | PerKw
deriving DecidableEq, Repr

/-- The struct `glightning.FeeRate`, with plain fields as in Go. A field that
a composite literal leaves out keeps its zero value, given here as the default
of the field: rate 0, the first style `PerKb`, the first directive `Normal`. -/
structure FeeRate where
  Rate : Nat := 0
  Style : FeeRateStyle := FeeRateStyle.PerKb
  Directive : FeeDirective := FeeDirective.Normal
deriving DecidableEq, Repr

/-- The arguments of one `FundChannelExt` call, in the order of the call. -/
structure FundChannelArgs where
  id : String
  amount : Int
  feerate : Option FeeRate
  announce : Bool
  minConf : Option Nat
  pushMsat : Nat
  minDepth : Option Nat
  reserve : Int
deriving DecidableEq, Repr

/-- The fields of the `FundChannelExt` result the client reads. -/
structure FundChannelResult where
  FundingTxId : String
  FundingTxOutputNum : Int
deriving DecidableEq, Repr

/-- The RPCs a function issues to the node. -/
inductive RpcCall where
  | getPeer (id : String)
  | fundChannelExt (args : FundChannelArgs)
deriving DecidableEq, Repr

/-- The struct `ClnClient`: the node behind `c.client`, as its responses. -/
structure ClnClient where
  GetPeer : String → Except Error Peer
  FundChannelExt : FundChannelArgs → Except Error FundChannelResult

def OPEN_STATUSES : List String := ["CHANNELD_NORMAL"]

def PENDING_STATUSES : List String := ["OPENINGD", "CHANNELD_AWAITING_LOCKIN"]

def CLOSING_STATUSES : List String :=
  ["CHANNELD_SHUTTING_DOWN", "CLOSINGD_SIGEXCHANGE", "CLOSINGD_COMPLETE",
   "AWAITING_UNILATERAL", "FUNDING_SPEND_SEEN", "ONCHAIN"]

def CLOSED_STATUSES : List String := ["CLOSED"]

/-- Go conversion `int(x)` of a `uint64` on a 64-bit platform. -/
def uint64ToInt (x : Nat) : Int :=
  if x % 2 ^ 64 < 2 ^ 63 then (x % 2 ^ 64 : Nat) else (x % 2 ^ 64 : Nat) - 2 ^ 64

/-- The fee rate chosen in `OpenChannel` (the `rate` variable); `toRate x`
stands for the float expression `uint(x * 1000)`. -/
def openChannelRate {F : Type} (toRate : F → Nat) (req : OpenChannelRequest F) : Option FeeRate :=
  match req.FeeSatPerVByte with
  | some f => some { Rate := toRate f, Style := FeeRateStyle.PerKb }
  | none =>
    match req.TargetConf with
    | some t =>
      if t < 3 then some { Directive := FeeDirective.Urgent }
      else if t < 30 then some { Directive := FeeDirective.Normal }
      else some { Directive := FeeDirective.Slow }
    | none => none

/-- The arguments `OpenChannel` passes to `FundChannelExt`. -/
def openChannelArgs {F : Type} (toRate : F → Nat) (req : OpenChannelRequest F) : FundChannelArgs :=
  let pubkey := hexEncode req.Destination
  let minConfs : Option Nat :=
    match req.MinConfs with
    | some m => some (m % 2 ^ 16)
    | none => none
  let minDepth : Option Nat := if req.IsZeroConf then some 0 else none
  let rate := openChannelRate toRate req
  { id := pubkey
    amount := uint64ToInt req.CapacitySat
    feerate := rate
    announce := !req.IsPrivate
    minConf := minConfs
    pushMsat := 0
    minDepth := minDepth
    reserve := 0 }

/-- Method `ClnClient.OpenChannel`. `newHashFromStr` is `chainhash.NewHashFromStr` and
`newOutPoint` is `basetypes.NewOutPoint`; the result comes with the RPCs issued. -/
def ClnClient.OpenChannel {F : Type} (c : ClnClient) (toRate : F → Nat)
    (newHashFromStr : String → Except Error Hash)
    (newOutPoint : List UInt8 → Nat → Except Error OutPoint)
    (req : OpenChannelRequest F) : List RpcCall × Except Error OutPoint :=
  let args := openChannelArgs toRate req
  ([RpcCall.fundChannelExt args],
    match c.FundChannelExt args with
    | .error err => .error err
    | .ok fundResult =>
      match newHashFromStr fundResult.FundingTxId with
      | .error err => .error err
      | .ok fundingTxId =>
        match newOutPoint fundingTxId.bytes (fundResult.FundingTxOutputNum % 2 ^ 32).toNat with
        | .error err => .error err
        | .ok channelPoint => .ok channelPoint)

/-- The loop of `GetChannel` over `peer.Channels`, with the fall-through
`no channel found` after it. -/
def getChannelLoop (parseScid : String → Option ShortChannelID) (fundingTxID : String) :
    List PeerChannel → Except Error GetChannelResult
  | [] => .error Error.noChannelFound
  | c :: rest =>
    if c.State ∈ OPEN_STATUSES ∧ c.FundingTxId = fundingTxID then
      match parseScid c.ShortChannelId with
      | none => .error (Error.parse c.ShortChannelId)
      | some confirmedChanID =>
        match parseScid c.Alias.Local with
        | none => .error (Error.parse c.Alias.Local)
        | some initialChanID =>
          .ok { InitialChannelID := initialChanID, ConfirmedChannelID := confirmedChanID }
    else getChannelLoop parseScid fundingTxID rest

/-- Method `ClnClient.GetChannel`. -/
def ClnClient.GetChannel (c : ClnClient) (parseScid : String → Option ShortChannelID)
    (peerID : List UInt8) (channelPoint : OutPoint) : Except Error GetChannelResult :=
  let pubkey := hexEncode peerID
  match c.GetPeer pubkey with
  | .error err => .error err
  | .ok peer =>
    let fundingTxID := channelPoint.Hash.String
    getChannelLoop parseScid fundingTxID peer.Channels

/-- Method `ClnClient.GetNodeChannelCount`: the Go pair `(count, err)`. -/
def ClnClient.GetNodeChannelCount (c : ClnClient) (nodeID : List UInt8) : Nat × Option Error :=
  let pubkey := hexEncode nodeID
  match c.GetPeer pubkey with
  | .error err => (0, some err)
  | .ok peer =>
    let openPendingStatuses := OPEN_STATUSES ++ PENDING_STATUSES
    let count := peer.Channels.foldl
      (fun count ch => if ch.State ∈ openPendingStatuses then count + 1 else count) 0
    (count, none)

/-- Go `fmt.Sprintf("%s:%d", txid, outnum)`. -/
def formatChannelPoint (txid : String) (outnum : Nat) : String :=
  txid ++ ":" ++ toString outnum

/-- One iteration of the first loop of `GetClosedChannels`. -/
def closingLookupStep (parseScid : String → Option ShortChannelID) (lookup : GoMap)
    (c : PeerChannel) : GoMap :=
  if c.State ∈ CLOSING_STATUSES then
    match parseScid c.ShortChannelId with
    | none => lookup
    | some cid =>
      let outnum := cid &&& 0xFFFFFF
      let cp := formatChannelPoint c.FundingTxId outnum
      lookup.insert cp cid
  else lookup

/-- Method `ClnClient.GetClosedChannels`, with the RPCs issued. -/
def ClnClient.GetClosedChannels (c : ClnClient) (parseScid : String → Option ShortChannelID)
    (nodeID : String) (channelPoints : GoMap) : List RpcCall × Except Error GoMap :=
  let r : GoMap := ∅
  if channelPoints.entries.length = 0 then ([], .ok r)
  else
    match c.GetPeer nodeID with
    | .error err => ([RpcCall.getPeer nodeID], .error err)
    | .ok peer =>
      let lookup : GoMap := peer.Channels.foldl (closingLookupStep parseScid) ∅
      let r := channelPoints.foldl
        (fun r c h => if ¬ (lookup.lookup c).isSome then r.insert c h else r) r
      ([RpcCall.getPeer nodeID], .ok r)

/-! ## `lnd/interceptor.go` -/

/-- The type `interceptor.InterceptAction`. Its constants are declared outside
the sources; `other` is a value different from the three constants. -/
inductive InterceptAction where
  | INTERCEPT_RESUME
  | INTERCEPT_RESUME_WITH_ONION
  | INTERCEPT_FAIL_HTLC_WITH_CODE
  | other (v : Nat)
deriving DecidableEq, Repr

/-- The type `interceptor.InterceptFailureCode`. Its constants are declared
outside the sources; `other` is a value different from the three constants. -/
inductive InterceptFailureCode where
  | FAILURE_TEMPORARY_CHANNEL_FAILURE
  | FAILURE_TEMPORARY_NODE_FAILURE
  | FAILURE_INCORRECT_OR_UNKNOWN_PAYMENT_DETAILS
  | other (v : Nat)
deriving DecidableEq, Repr

/-- The enum `lnrpc.Failure_FailureCode`: the three codes the adapter names,
and `other` for every further code of the enum. -/
inductive Failure_FailureCode where
  | TEMPORARY_CHANNEL_FAILURE
  | TEMPORARY_NODE_FAILURE
  | INCORRECT_OR_UNKNOWN_PAYMENT_DETAILS
  | other (v : Nat)
deriving DecidableEq, Repr

/-- The enum `routerrpc.ResolveHoldForwardAction`. -/
inductive ResolveHoldForwardAction where
  | SETTLE
  | FAIL
  | RESUME
deriving DecidableEq, Repr

/-- The message `routerrpc.CircuitKey`. -/
structure CircuitKey where
  ChanId : Nat
  HtlcId : Nat
deriving DecidableEq, Repr

/-- The message `routerrpc.ForwardHtlcInterceptRequest`, the fields the adapter reads. -/
structure ForwardHtlcInterceptRequest where
  IncomingCircuitKey : CircuitKey
  IncomingAmountMsat : Nat
  IncomingExpiry : Nat
  PaymentHash : List UInt8
  OutgoingRequestedChanId : Nat
  OutgoingAmountMsat : Nat
  OutgoingExpiry : Nat
  OnionBlob : List UInt8
deriving DecidableEq, Repr

/-- The message `routerrpc.ForwardHtlcInterceptResponse`. A field that the
composite literal leaves out (and so keeps its zero value) is `none`. -/
structure ForwardHtlcInterceptResponse where
  IncomingCircuitKey : CircuitKey
  Action : ResolveHoldForwardAction
  FailureCode : Option Failure_FailureCode
  OutgoingAmountMsat : Option Nat
  OutgoingRequestedChanId : Option Nat
  OnionBlob : Option (List UInt8)
deriving DecidableEq, Repr

/-- The fields of `interceptor.InterceptResult` the adapter reads. -/
structure InterceptResult where
  Action : InterceptAction
  FailureCode : InterceptFailureCode
  AmountMsat : Nat
  ChannelId : ShortChannelID
  OnionBlob : List UInt8
deriving DecidableEq, Repr

/-- The arguments of one `Interceptor.Intercept` call, in the order of the call. -/
structure InterceptArgs where
  nextHop : String
  paymentHash : List UInt8
  outgoingAmountMsat : Nat
  outgoingExpiry : Nat
  incomingExpiry : Nat
deriving DecidableEq, Repr

/-- The fields of `lnrpc.ChannelEdge` the adapter reads. -/
structure ChannelEdge where
  Node1Pub : String
  Node2Pub : String
deriving DecidableEq, Repr

/-- What the adapter holds: `i.config.NodePubkey`, the graph lookup
`i.client.client.GetChanInfo` (the Go pair `(chanInfo, err)`, keyed by channel
id) and the decision engine `i.interceptor.Intercept`. -/
structure LndHtlcInterceptor where
  NodePubkey : String
  GetChanInfo : Nat → Option ChannelEdge × Option Error
  Intercept : InterceptArgs → InterceptResult

/-- Method `LndHtlcInterceptor.mapFailureCode`. -/
def LndHtlcInterceptor.mapFailureCode (original : InterceptFailureCode) : Failure_FailureCode :=
  match original with
  | .FAILURE_TEMPORARY_CHANNEL_FAILURE => .TEMPORARY_CHANNEL_FAILURE
  | .FAILURE_TEMPORARY_NODE_FAILURE => .TEMPORARY_NODE_FAILURE
  | .FAILURE_INCORRECT_OR_UNKNOWN_PAYMENT_DETAILS => .INCORRECT_OR_UNKNOWN_PAYMENT_DETAILS
  | .other _ => .TEMPORARY_CHANNEL_FAILURE

/-- The next-hop resolution of `intercept` (the `nextHop` variable). -/
def LndHtlcInterceptor.nextHop (i : LndHtlcInterceptor)
    (request : ForwardHtlcInterceptRequest) : String :=
  let nextHop := "<unknown>"
  match i.GetChanInfo request.OutgoingRequestedChanId with
  | (some chanInfo, none) =>
    let nextHop := if chanInfo.Node1Pub = i.NodePubkey then chanInfo.Node2Pub else nextHop
    let nextHop := if chanInfo.Node2Pub = i.NodePubkey then chanInfo.Node1Pub else nextHop
    nextHop
  | _ => nextHop

/-- The arguments with which the handler of one request calls `Interceptor.Intercept`. -/
def LndHtlcInterceptor.interceptArgs (i : LndHtlcInterceptor)
    (request : ForwardHtlcInterceptRequest) : InterceptArgs :=
  { nextHop := i.nextHop request
    paymentHash := request.PaymentHash
    outgoingAmountMsat := request.OutgoingAmountMsat
    outgoingExpiry := request.OutgoingExpiry
    incomingExpiry := request.IncomingExpiry }

/-- The `switch` of the handler: the `Send` calls made for one request, in order. -/
def LndHtlcInterceptor.respond (request : ForwardHtlcInterceptRequest)
    (interceptResult : InterceptResult) : List ForwardHtlcInterceptResponse :=
  match interceptResult.Action with
  | .INTERCEPT_RESUME_WITH_ONION =>
    [{ IncomingCircuitKey := request.IncomingCircuitKey
       Action := ResolveHoldForwardAction.RESUME
       FailureCode := none
       OutgoingAmountMsat := some interceptResult.AmountMsat
       OutgoingRequestedChanId := some interceptResult.ChannelId
       OnionBlob := some interceptResult.OnionBlob }]
  | .INTERCEPT_FAIL_HTLC_WITH_CODE =>
    [{ IncomingCircuitKey := request.IncomingCircuitKey
       Action := ResolveHoldForwardAction.FAIL
       FailureCode := some (LndHtlcInterceptor.mapFailureCode interceptResult.FailureCode)
       OutgoingAmountMsat := none
       OutgoingRequestedChanId := none
       OnionBlob := none }]
  | _ =>
    [{ IncomingCircuitKey := request.IncomingCircuitKey
       Action := ResolveHoldForwardAction.RESUME
       FailureCode := none
       OutgoingAmountMsat := some request.OutgoingAmountMsat
       OutgoingRequestedChanId := some request.OutgoingRequestedChanId
       OnionBlob := some request.OnionBlob }]

/-- The handler spawned for one received request: the call to
`Interceptor.Intercept`, then the `switch` on its result. -/
def LndHtlcInterceptor.handle (i : LndHtlcInterceptor)
    (request : ForwardHtlcInterceptRequest) : List ForwardHtlcInterceptResponse :=
  let interceptResult := i.Intercept (i.interceptArgs request)
  LndHtlcInterceptor.respond request interceptResult


/-- Exactly one proposition of the list holds. -/
def ExactlyOne : List Prop → Prop
  | [] => False
  | p :: ps => (p ∧ ∀ q ∈ ps, ¬ q) ∨ (¬ p ∧ ExactlyOne ps)

/-! ## Concrete values used to instantiate the theorems -/

/-- A forward of 50000 msat over channel 77. -/
def sampleRequest : ForwardHtlcInterceptRequest :=
  { IncomingCircuitKey := { ChanId := 5, HtlcId := 3 }
    IncomingAmountMsat := 51000
    IncomingExpiry := 140
    PaymentHash := [0x22, 0x22]
    OutgoingRequestedChanId := 77
    OutgoingAmountMsat := 50000
    OutgoingExpiry := 100
    OnionBlob := [1, 2, 3] }

/-- A decision that fails the HTLC with a code outside the three constants. -/
def sampleFailResult : InterceptResult :=
  { Action := InterceptAction.INTERCEPT_FAIL_HTLC_WITH_CODE
    FailureCode := InterceptFailureCode.other 9
    AmountMsat := 0
    ChannelId := 0
    OnionBlob := [] }

/-- An adapter for node `02aa` that knows channel 77 (to `03bb`) and fails every HTLC. -/
def sampleAdapter : LndHtlcInterceptor :=
  { NodePubkey := "02aa"
    GetChanInfo := fun chanId =>
      if chanId = 77 then (some { Node1Pub := "02aa", Node2Pub := "03bb" }, none)
      else (none, some (Error.rpc "edge not found"))
    Intercept := fun _ => sampleFailResult }

/-- The response `sampleAdapter` sends for `sampleRequest`. -/
def sampleFailResponse : ForwardHtlcInterceptResponse :=
  { IncomingCircuitKey := { ChanId := 5, HtlcId := 3 }
    Action := ResolveHoldForwardAction.FAIL
    FailureCode := some Failure_FailureCode.TEMPORARY_CHANNEL_FAILURE
    OutgoingAmountMsat := none
    OutgoingRequestedChanId := none
    OnionBlob := none }

/-- A decision that forwards 50000 msat over the alias `1x0x1` with a new onion. -/
def sampleOnionResult : InterceptResult :=
  { Action := InterceptAction.INTERCEPT_RESUME_WITH_ONION
    FailureCode := InterceptFailureCode.FAILURE_TEMPORARY_CHANNEL_FAILURE
    AmountMsat := 50000
    ChannelId := 1099511627777
    OnionBlob := [9, 9] }

/-- A request to open a private zero-conf channel of 100000 sat, with an
explicit fee rate (in sat/vbyte, as a natural number) and a target of 6 blocks. -/
def sampleOpenRequest : OpenChannelRequest Nat :=
  { Destination := [0xab, 0x01]
    CapacitySat := 100000
    MinHtlcMsat := 600
    IsPrivate := true
    IsZeroConf := true
    MinConfs := none
    FeeSatPerVByte := some 2
    TargetConf := some 6 }

/-- The request `sampleOpenRequest` without the explicit fee rate. -/
def sampleTargetRequest : OpenChannelRequest Nat :=
  { sampleOpenRequest with FeeSatPerVByte := none }

/-- The expression `uint(x * 1000)` on natural numbers. -/
def sampleToRate (x : Nat) : Nat := x * 1000

/-- A request with the explicit fee rate 0 and no confirmation target. -/
def zeroRateRequest : OpenChannelRequest Nat :=
  { sampleOpenRequest with FeeSatPerVByte := some 0, TargetConf := none }

/-- A request without explicit fee rate and with a target of 10 blocks. -/
def normalTargetRequest : OpenChannelRequest Nat :=
  { sampleOpenRequest with FeeSatPerVByte := none, TargetConf := some 10 }

/-- A node that funds every channel it is asked for with output 1 of `cafe`. -/
def sampleFundingClient : ClnClient :=
  { GetPeer := fun _ => .error (Error.rpc "peer not found")
    FundChannelExt := fun _ => .ok { FundingTxId := "cafe", FundingTxOutputNum := 1 } }

/-- A stand-in for `chainhash.NewHashFromStr` that knows the txid `cafe`. -/
def sampleNewHash (txid : String) : Except Error Hash :=
  if txid = "cafe" then .ok { bytes := [0xfe, 0xca] } else .error (Error.rpc "bad hash")

/-- A stand-in for `basetypes.NewOutPoint` that accepts every input. -/
def sampleNewOutPoint (hash : List UInt8) (index : Nat) : Except Error OutPoint :=
  .ok { Hash := { bytes := hash }, Index := index }

/-- The outcomes of the fee-rate selection as the specification lists them, as
properties of the rate passed to the backend: an explicit per-kb rate (a
literal that names no directive), the directive Urgent, the directive Normal,
the directive Slow, no rate. -/
def claimedFeeRateOutcomes (rate : Option FeeRate) : List Prop :=
  [∃ r, rate = some { Rate := r, Style := FeeRateStyle.PerKb },
   rate = some { Directive := FeeDirective.Urgent },
   rate = some { Directive := FeeDirective.Normal },
   rate = some { Directive := FeeDirective.Slow },
   rate = none]

/-- An adapter for node `02aa` that rewrites the onion of every HTLC whose next
hop is `03bb` and fails every other HTLC. -/
def routingAdapter : LndHtlcInterceptor :=
  { NodePubkey := "02aa"
    GetChanInfo := fun chanId =>
      if chanId = 77 then (some { Node1Pub := "02aa", Node2Pub := "03bb" }, none)
      else (none, some (Error.rpc "edge not found"))
    Intercept := fun args => if args.nextHop = "03bb" then sampleOnionResult else sampleFailResult }

/-- A node with no peers and no funds. -/
def sampleOfflineClient : ClnClient :=
  { GetPeer := fun _ => .error (Error.rpc "peer not found")
    FundChannelExt := fun _ => .error (Error.rpc "insufficient funds") }

/-- A funding txid as the node prints it (64 hexadecimal digits). -/
def txidA : String := "deadbeef00000000000000000000000000000000000000000000000000000000"

/-- A second funding txid. -/
def txidB : String := "cafebabe00000000000000000000000000000000000000000000000000000000"

/-- A peer channel with the given state, short channel id, local alias and funding txid. -/
def mkChannel (state scid localAlias txid : String) : PeerChannel :=
  { State := state, ShortChannelId := scid, Alias := { Local := localAlias }, FundingTxId := txid }

/-- A node whose every peer has the given channels. -/
def clientWith (channels : List PeerChannel) : ClnClient :=
  { GetPeer := fun _ => .ok { Channels := channels }
    FundChannelExt := fun _ => .error (Error.rpc "insufficient funds") }

/-- Four channels: one open, one pending, one on chain, one in a state the client does not know. -/
def sampleCountChannels : List PeerChannel :=
  [mkChannel "CHANNELD_NORMAL" "1x0x0" "9x9x9" txidA,
   mkChannel "OPENINGD" "" "" txidB,
   mkChannel "ONCHAIN" "2x0x0" "" txidB,
   mkChannel "DUALOPEND_OPEN_INIT" "" "" txidB]

/-- Scenario 6 of the specification: channel A is shutting down, channel B is active. -/
def scenarioChannels : List PeerChannel :=
  [mkChannel "CHANNELD_SHUTTING_DOWN" "1x0x0" "" txidA,
   mkChannel "CHANNELD_NORMAL" "2x0x1" "" txidB]

/-- The candidates of scenario 6, keyed by channel point, with the scids of A and B. -/
def scenarioCandidates : GoMap :=
  AList.insert (txidA ++ ":0") 1099511627776 (AList.insert (txidB ++ ":1") 2199023255553 ∅)

/-- Channel A shutting down, confirmed as output 0 of transaction 1 of block 1. -/
def leakChannels : List PeerChannel :=
  [mkChannel "CHANNELD_SHUTTING_DOWN" "1x1x0" "" txidA]

/-- The candidate for channel A, keyed by its channel point, with its scid. -/
def leakCandidates : GoMap :=
  AList.insert (txidA ++ ":0") 1099511693312 ∅

/-- The transaction hash whose text form is `txidA`. -/
def hashA : Hash :=
  { bytes := List.replicate 28 0 ++ [0xef, 0xbe, 0xad, 0xde] }

/-- The funding output index the node reports for a channel: the `out` field
of its short channel id `block x tx x out`. -/
def PeerChannel.fundingOutputIndex (ch : PeerChannel) : Option Nat :=
  (scidFields ch.ShortChannelId).map fun f => f.2.2

/-- The channel `ch` is the first one of `channels` whose state is in
`OPEN_STATUSES` and whose funding txid is `txid`. -/
def IsFirstOpenChannel (channels : List PeerChannel) (txid : String) (ch : PeerChannel) : Prop :=
  ∃ pre post, channels = pre ++ ch :: post ∧
    (∀ x ∈ pre, ¬ (x.State ∈ OPEN_STATUSES ∧ x.FundingTxId = txid)) ∧
    ch.State ∈ OPEN_STATUSES ∧ ch.FundingTxId = txid

/-- The contract of `get_channel` in the words of the specification, for a
peer lookup that succeeds: the call succeeds if and only if the peer has a
channel whose state is in `OPEN_STATUSES` and whose funding outpoint (txid and
output index) equals `channelPoint`; a successful call returns that channel's
local alias and short channel id; every other call fails with
`no channel found`. -/
def GetChannelSpec (c : ClnClient) (parseScid : String → Option ShortChannelID)
    (peerID : List UInt8) (channelPoint : OutPoint) : Prop :=
  ∀ peer : Peer, c.GetPeer (hexEncode peerID) = .ok peer →
    ((∃ res, c.GetChannel parseScid peerID channelPoint = .ok res) ↔
      ∃ ch ∈ peer.Channels, ch.State ∈ OPEN_STATUSES ∧
        ch.FundingTxId = channelPoint.Hash.String ∧
        ch.fundingOutputIndex = some channelPoint.Index) ∧
    (∀ res, c.GetChannel parseScid peerID channelPoint = .ok res →
      ∃ ch ∈ peer.Channels, ch.State ∈ OPEN_STATUSES ∧
        ch.FundingTxId = channelPoint.Hash.String ∧
        ch.fundingOutputIndex = some channelPoint.Index ∧
        parseScid ch.Alias.Local = some res.InitialChannelID ∧
        parseScid ch.ShortChannelId = some res.ConfirmedChannelID) ∧
    ((¬ ∃ res, c.GetChannel parseScid peerID channelPoint = .ok res) →
      c.GetChannel parseScid peerID channelPoint = .error Error.noChannelFound)

/-- An open channel funded by `txidA` whose local alias is not a short channel id. -/
def badAliasChannels : List PeerChannel :=
  [mkChannel "CHANNELD_NORMAL" "1x1x0" "not-an-scid" txidA]

/-- An open channel funded by output 0 of `txidA`, with alias `2x2x2`. -/
def openChannels : List PeerChannel :=
  [mkChannel "CHANNELD_NORMAL" "1x1x0" "2x2x2" txidA]

/-! ## Theorems -/

theorem mapFailureCode_cases (c : InterceptFailureCode) :
    LndHtlcInterceptor.mapFailureCode c = Failure_FailureCode.TEMPORARY_CHANNEL_FAILURE ∨
    LndHtlcInterceptor.mapFailureCode c = Failure_FailureCode.TEMPORARY_NODE_FAILURE ∨
    LndHtlcInterceptor.mapFailureCode c =
      Failure_FailureCode.INCORRECT_OR_UNKNOWN_PAYMENT_DETAILS := by
  cases c <;> simp [LndHtlcInterceptor.mapFailureCode]

theorem respond_fail_code (request : ForwardHtlcInterceptRequest) (result : InterceptResult)
    (resp : ForwardHtlcInterceptResponse)
    (hmem : resp ∈ LndHtlcInterceptor.respond request result)
    (hfail : resp.Action = ResolveHoldForwardAction.FAIL) :
    resp.FailureCode = some (LndHtlcInterceptor.mapFailureCode result.FailureCode) := by
  unfold LndHtlcInterceptor.respond at hmem
  split at hmem <;> simp at hmem <;> subst hmem <;> simp_all

/-- C5: `mapFailureCode` is total and lands in the enumerated set: for every
`InterceptFailureCode` the result is one of `TEMPORARY_CHANNEL_FAILURE`,
`TEMPORARY_NODE_FAILURE`, `INCORRECT_OR_UNKNOWN_PAYMENT_DETAILS`; each of the
three known codes maps to the LND code of the same name; every other value
maps to `TEMPORARY_CHANNEL_FAILURE`; and every FAIL response the handler sends
carries a code of that set. -/
theorem mapFailureCode_total_in_set (c : InterceptFailureCode) :
    (LndHtlcInterceptor.mapFailureCode c = Failure_FailureCode.TEMPORARY_CHANNEL_FAILURE ∨
      LndHtlcInterceptor.mapFailureCode c = Failure_FailureCode.TEMPORARY_NODE_FAILURE ∨
      LndHtlcInterceptor.mapFailureCode c =
        Failure_FailureCode.INCORRECT_OR_UNKNOWN_PAYMENT_DETAILS) ∧
    LndHtlcInterceptor.mapFailureCode InterceptFailureCode.FAILURE_TEMPORARY_CHANNEL_FAILURE =
      Failure_FailureCode.TEMPORARY_CHANNEL_FAILURE ∧
    LndHtlcInterceptor.mapFailureCode InterceptFailureCode.FAILURE_TEMPORARY_NODE_FAILURE =
      Failure_FailureCode.TEMPORARY_NODE_FAILURE ∧
    LndHtlcInterceptor.mapFailureCode
        InterceptFailureCode.FAILURE_INCORRECT_OR_UNKNOWN_PAYMENT_DETAILS =
      Failure_FailureCode.INCORRECT_OR_UNKNOWN_PAYMENT_DETAILS ∧
    (∀ v, LndHtlcInterceptor.mapFailureCode (InterceptFailureCode.other v) =
      Failure_FailureCode.TEMPORARY_CHANNEL_FAILURE) ∧
    (∀ (i : LndHtlcInterceptor) (request : ForwardHtlcInterceptRequest)
        (resp : ForwardHtlcInterceptResponse),
      resp ∈ i.handle request → resp.Action = ResolveHoldForwardAction.FAIL →
      resp.FailureCode = some Failure_FailureCode.TEMPORARY_CHANNEL_FAILURE ∨
      resp.FailureCode = some Failure_FailureCode.TEMPORARY_NODE_FAILURE ∨
      resp.FailureCode = some Failure_FailureCode.INCORRECT_OR_UNKNOWN_PAYMENT_DETAILS) := by
  refine ⟨mapFailureCode_cases c, rfl, rfl, rfl, fun _ => rfl, ?_⟩
  intro i request resp hmem hfail
  have h := respond_fail_code request _ resp hmem hfail
  rw [h]
  rcases mapFailureCode_cases (i.Intercept (i.interceptArgs request)).FailureCode with h1 | h1 | h1 <;>
    simp [h1]


theorem mapFailureCode_total_in_set_witness :
    sampleFailResponse ∈ sampleAdapter.handle sampleRequest ∧
    sampleFailResponse.Action = ResolveHoldForwardAction.FAIL ∧
    (sampleFailResponse.FailureCode = some Failure_FailureCode.TEMPORARY_CHANNEL_FAILURE ∨
      sampleFailResponse.FailureCode = some Failure_FailureCode.TEMPORARY_NODE_FAILURE ∨
      sampleFailResponse.FailureCode =
        some Failure_FailureCode.INCORRECT_OR_UNKNOWN_PAYMENT_DETAILS) :=
  ⟨by decide, by decide,
    (mapFailureCode_total_in_set (InterceptFailureCode.other 9)).2.2.2.2.2
      sampleAdapter sampleRequest sampleFailResponse (by decide) (by decide)⟩

/-- C4: for every intercepted request and every result of `Interceptor.Intercept`
exactly one response is sent; it carries the request's `IncomingCircuitKey`;
`INTERCEPT_RESUME_WITH_ONION` gives RESUME with the result's `AmountMsat`,
`ChannelId` and `OnionBlob`; `INTERCEPT_FAIL_HTLC_WITH_CODE` gives FAIL with
`mapFailureCode result.FailureCode`; `INTERCEPT_RESUME` and every other action
value give RESUME with the request's own `OutgoingAmountMsat`,
`OutgoingRequestedChanId` and `OnionBlob`. -/
theorem respond_encoding (i : LndHtlcInterceptor) (request : ForwardHtlcInterceptRequest)
    (result : InterceptResult) :
    i.handle request = LndHtlcInterceptor.respond request (i.Intercept (i.interceptArgs request)) ∧
    ∃ resp : ForwardHtlcInterceptResponse,
      LndHtlcInterceptor.respond request result = [resp] ∧
      resp.IncomingCircuitKey = request.IncomingCircuitKey ∧
      (result.Action = InterceptAction.INTERCEPT_RESUME_WITH_ONION →
        resp.Action = ResolveHoldForwardAction.RESUME ∧
        resp.OutgoingAmountMsat = some result.AmountMsat ∧
        resp.OutgoingRequestedChanId = some result.ChannelId ∧
        resp.OnionBlob = some result.OnionBlob) ∧
      (result.Action = InterceptAction.INTERCEPT_FAIL_HTLC_WITH_CODE →
        resp.Action = ResolveHoldForwardAction.FAIL ∧
        resp.FailureCode = some (LndHtlcInterceptor.mapFailureCode result.FailureCode)) ∧
      (result.Action ≠ InterceptAction.INTERCEPT_RESUME_WITH_ONION →
        result.Action ≠ InterceptAction.INTERCEPT_FAIL_HTLC_WITH_CODE →
        resp.Action = ResolveHoldForwardAction.RESUME ∧
        resp.OutgoingAmountMsat = some request.OutgoingAmountMsat ∧
        resp.OutgoingRequestedChanId = some request.OutgoingRequestedChanId ∧
        resp.OnionBlob = some request.OnionBlob) := by
  refine ⟨rfl, ?_⟩
  unfold LndHtlcInterceptor.respond
  split
  · next h => exact ⟨_, rfl, rfl, fun _ => ⟨rfl, rfl, rfl, rfl⟩, fun h2 => by simp [h] at h2,
      fun h2 => absurd h h2⟩
  · next h => exact ⟨_, rfl, rfl, fun h2 => by simp [h] at h2, fun _ => ⟨rfl, rfl⟩,
      fun _ h2 => absurd h h2⟩
  · next h1 h2 => exact ⟨_, rfl, rfl, fun h => absurd h h1, fun h => absurd h h2,
      fun _ _ => ⟨rfl, rfl, rfl, rfl⟩⟩


theorem respond_encoding_witness :
    ∃ resp : ForwardHtlcInterceptResponse,
      LndHtlcInterceptor.respond sampleRequest sampleOnionResult = [resp] ∧
      resp.Action = ResolveHoldForwardAction.RESUME ∧
      resp.OutgoingAmountMsat = some 50000 ∧
      resp.OutgoingRequestedChanId = some 1099511627777 ∧
      resp.OnionBlob = some [9, 9] := by
  obtain ⟨resp, h1, _, h3, _, _⟩ :=
    (respond_encoding sampleAdapter sampleRequest sampleOnionResult).2
  exact ⟨resp, h1, h3 rfl⟩

/-- C10: for every intercepted request, if the channel-graph lookup by
`OutgoingRequestedChanId` succeeds and exactly one endpoint equals the node's
own pubkey, the next hop passed to `Interceptor.Intercept` is the other one;
if the lookup fails, returns nothing, or neither endpoint is the node's own
pubkey, the next hop is `<unknown>`; and the payment hash, outgoing amount,
outgoing expiry and incoming expiry passed are the request's own. The handler
calls `Interceptor.Intercept` on exactly these arguments: what it sends is the
encoding of the result `Intercept` returns for them. -/
theorem interceptArgs_next_hop (i : LndHtlcInterceptor) (request : ForwardHtlcInterceptRequest) :
    i.handle request =
      LndHtlcInterceptor.respond request (i.Intercept (i.interceptArgs request)) ∧
    (∀ chanInfo : ChannelEdge,
      i.GetChanInfo request.OutgoingRequestedChanId = (some chanInfo, none) →
      (chanInfo.Node1Pub = i.NodePubkey → chanInfo.Node2Pub ≠ i.NodePubkey →
        (i.interceptArgs request).nextHop = chanInfo.Node2Pub) ∧
      (chanInfo.Node2Pub = i.NodePubkey → chanInfo.Node1Pub ≠ i.NodePubkey →
        (i.interceptArgs request).nextHop = chanInfo.Node1Pub) ∧
      (chanInfo.Node1Pub ≠ i.NodePubkey → chanInfo.Node2Pub ≠ i.NodePubkey →
        (i.interceptArgs request).nextHop = "<unknown>")) ∧
    ((i.GetChanInfo request.OutgoingRequestedChanId).2 ≠ none →
      (i.interceptArgs request).nextHop = "<unknown>") ∧
    ((i.GetChanInfo request.OutgoingRequestedChanId).1 = none →
      (i.interceptArgs request).nextHop = "<unknown>") ∧
    (i.interceptArgs request).paymentHash = request.PaymentHash ∧
    (i.interceptArgs request).outgoingAmountMsat = request.OutgoingAmountMsat ∧
    (i.interceptArgs request).outgoingExpiry = request.OutgoingExpiry ∧
    (i.interceptArgs request).incomingExpiry = request.IncomingExpiry := by
  refine ⟨rfl, ?_, ?_, ?_, rfl, rfl, rfl, rfl⟩
  · intro chanInfo h
    simp only [LndHtlcInterceptor.interceptArgs, LndHtlcInterceptor.nextHop, h]
    refine ⟨fun h1 h2 => ?_, fun h1 h2 => ?_, fun h1 h2 => ?_⟩
    · simp [h1, h2]
    · simp [h1, h2]
    · simp [h1, h2]
  · intro h
    simp only [LndHtlcInterceptor.interceptArgs, LndHtlcInterceptor.nextHop]
    split
    · next h2 => rw [h2] at h; exact absurd rfl h
    · rfl
  · intro h
    simp only [LndHtlcInterceptor.interceptArgs, LndHtlcInterceptor.nextHop]
    split
    · next h2 => rw [h2] at h; exact absurd h (by simp)
    · rfl

theorem interceptArgs_next_hop_witness :
    routingAdapter.GetChanInfo sampleRequest.OutgoingRequestedChanId =
      (some { Node1Pub := "02aa", Node2Pub := "03bb" }, none) ∧
    (routingAdapter.interceptArgs sampleRequest).nextHop = "03bb" ∧
    routingAdapter.handle sampleRequest =
      LndHtlcInterceptor.respond sampleRequest sampleOnionResult := by
  have h := interceptArgs_next_hop routingAdapter sampleRequest
  have hop : (routingAdapter.interceptArgs sampleRequest).nextHop = "03bb" :=
    (h.2.1 { Node1Pub := "02aa", Node2Pub := "03bb" } (by decide)).1 (by decide) (by decide)
  refine ⟨by decide, hop, h.1.trans ?_⟩
  have hres : routingAdapter.Intercept (routingAdapter.interceptArgs sampleRequest) =
      sampleOnionResult := by
    simp only [routingAdapter, hop]
    simp [routingAdapter, LndHtlcInterceptor.interceptArgs, LndHtlcInterceptor.nextHop,
      sampleRequest]
  rw [hres]


theorem openChannel_calls_backend {F : Type} (c : ClnClient) (toRate : F → Nat)
    (newHashFromStr : String → Except Error Hash)
    (newOutPoint : List UInt8 → Nat → Except Error OutPoint) (req : OpenChannelRequest F) :
    c.OpenChannel toRate newHashFromStr newOutPoint req =
      ([RpcCall.fundChannelExt (openChannelArgs toRate req)],
        (c.FundChannelExt (openChannelArgs toRate req)).bind fun fundResult =>
          (newHashFromStr fundResult.FundingTxId).bind fun fundingTxId =>
            newOutPoint fundingTxId.bytes (fundResult.FundingTxOutputNum % 2 ^ 32).toNat) := by
  unfold ClnClient.OpenChannel
  cases h1 : c.FundChannelExt (openChannelArgs toRate req) with
  | error err => simp only [h1, Except.bind]
  | ok fundResult =>
    cases h2 : newHashFromStr fundResult.FundingTxId with
    | error err => simp only [h1, h2, Except.bind]
    | ok fundingTxId =>
      cases h3 : newOutPoint fundingTxId.bytes (fundResult.FundingTxOutputNum % 2 ^ 32).toNat with
      | error err => simp only [h1, h2, h3, Except.bind]
      | ok channelPoint => simp only [h1, h2, h3, Except.bind]

/-- C7: for every request, `OpenChannel` issues a single `FundChannelExt` call
and its result is computed from the backend's answer to exactly that call; the
min-depth of the call is present and equal to 0 exactly when `IsZeroConf` is
set and absent otherwise, the channel is announced exactly when `IsPrivate` is
false, and two requests that agree on the flag get the same value whatever
their other fields. -/
theorem openChannel_zero_conf_privacy {F : Type} (c : ClnClient) (toRate : F → Nat)
    (newHashFromStr : String → Except Error Hash)
    (newOutPoint : List UInt8 → Nat → Except Error OutPoint) (req : OpenChannelRequest F) :
    ∃ args : FundChannelArgs,
      (c.OpenChannel toRate newHashFromStr newOutPoint req).1 = [RpcCall.fundChannelExt args] ∧
      (c.OpenChannel toRate newHashFromStr newOutPoint req).2 =
        ((c.FundChannelExt args).bind fun fundResult =>
          (newHashFromStr fundResult.FundingTxId).bind fun fundingTxId =>
            newOutPoint fundingTxId.bytes (fundResult.FundingTxOutputNum % 2 ^ 32).toNat) ∧
      (args.minDepth = some 0 ↔ req.IsZeroConf = true) ∧
      (args.minDepth = none ↔ req.IsZeroConf = false) ∧
      (args.announce = true ↔ req.IsPrivate = false) ∧
      (∀ (toRate2 : F → Nat) (req2 : OpenChannelRequest F),
        req2.IsZeroConf = req.IsZeroConf →
        (openChannelArgs toRate2 req2).minDepth = args.minDepth) ∧
      (∀ (toRate2 : F → Nat) (req2 : OpenChannelRequest F),
        req2.IsPrivate = req.IsPrivate →
        (openChannelArgs toRate2 req2).announce = args.announce) := by
  refine ⟨openChannelArgs toRate req, ?_, ?_, ?_, ?_, ?_, ?_, ?_⟩
  · rw [openChannel_calls_backend]
  · rw [openChannel_calls_backend]
  · cases h : req.IsZeroConf <;> simp [openChannelArgs, h]
  · cases h : req.IsZeroConf <;> simp [openChannelArgs, h]
  · cases h : req.IsPrivate <;> simp [openChannelArgs, h]
  · intro toRate2 req2 h
    simp [openChannelArgs, h]
  · intro toRate2 req2 h
    simp [openChannelArgs, h]

theorem openChannel_zero_conf_privacy_witness :
    sampleTargetRequest.IsZeroConf = sampleOpenRequest.IsZeroConf ∧
    (openChannelArgs sampleToRate sampleTargetRequest).minDepth = some 0 ∧
    (sampleFundingClient.OpenChannel sampleToRate sampleNewHash sampleNewOutPoint
      sampleOpenRequest).2 = .ok { Hash := { bytes := [0xfe, 0xca] }, Index := 1 } := by
  obtain ⟨args, _, h0, h1, _, _, h4, _⟩ :=
    openChannel_zero_conf_privacy sampleFundingClient sampleToRate sampleNewHash
      sampleNewOutPoint sampleOpenRequest
  exact ⟨rfl, (h4 sampleToRate sampleTargetRequest rfl).trans (h1.mpr rfl), h0.trans rfl⟩

/-- C3 (amended): `OpenChannel` issues a single `FundChannelExt` call and its
result is computed from the backend's answer to exactly that call; the fee
rate of the call follows the priority order. With `FeeSatPerVByte` set it is
the per-kb rate `uint(FeeSatPerVByte * 1000)` with the directive field left at
its zero value Normal, whatever `TargetConf` is; otherwise with
`TargetConf = t` set it is the directive Urgent when `t < 3`, Normal when
`3 ≤ t < 30`, Slow when `30 ≤ t`, each with rate 0; otherwise no rate is
passed. Exactly one of five values is passed for each request: a per-kb rate
greater than zero, the Urgent, Normal or Slow directive with rate zero, or no
rate; an explicit rate of zero is the same value as the Normal directive. -/
theorem openChannel_fee_rate_priority {F : Type} (c : ClnClient) (toRate : F → Nat)
    (newHashFromStr : String → Except Error Hash)
    (newOutPoint : List UInt8 → Nat → Except Error OutPoint) (req : OpenChannelRequest F) :
    ∃ args : FundChannelArgs,
      (c.OpenChannel toRate newHashFromStr newOutPoint req).1 = [RpcCall.fundChannelExt args] ∧
      (c.OpenChannel toRate newHashFromStr newOutPoint req).2 =
        ((c.FundChannelExt args).bind fun fundResult =>
          (newHashFromStr fundResult.FundingTxId).bind fun fundingTxId =>
            newOutPoint fundingTxId.bytes (fundResult.FundingTxOutputNum % 2 ^ 32).toNat) ∧
      (∀ f, req.FeeSatPerVByte = some f →
        args.feerate = some
          { Rate := toRate f, Style := FeeRateStyle.PerKb, Directive := FeeDirective.Normal }) ∧
      (∀ t, req.FeeSatPerVByte = none → req.TargetConf = some t →
        (t < 3 → args.feerate = some
          { Rate := 0, Style := FeeRateStyle.PerKb, Directive := FeeDirective.Urgent }) ∧
        (3 ≤ t → t < 30 → args.feerate = some
          { Rate := 0, Style := FeeRateStyle.PerKb, Directive := FeeDirective.Normal }) ∧
        (30 ≤ t → args.feerate = some
          { Rate := 0, Style := FeeRateStyle.PerKb, Directive := FeeDirective.Slow })) ∧
      (req.FeeSatPerVByte = none → req.TargetConf = none → args.feerate = none) ∧
      (∀ f, req.FeeSatPerVByte = some f → toRate f = 0 →
        args.feerate = some
          { Rate := 0, Style := FeeRateStyle.PerKb, Directive := FeeDirective.Normal }) ∧
      ExactlyOne
        [∃ rate, 0 < rate ∧ args.feerate = some
            { Rate := rate, Style := FeeRateStyle.PerKb, Directive := FeeDirective.Normal },
         args.feerate = some
            { Rate := 0, Style := FeeRateStyle.PerKb, Directive := FeeDirective.Urgent },
         args.feerate = some
            { Rate := 0, Style := FeeRateStyle.PerKb, Directive := FeeDirective.Normal },
         args.feerate = some
            { Rate := 0, Style := FeeRateStyle.PerKb, Directive := FeeDirective.Slow },
         args.feerate = none] := by
  refine ⟨openChannelArgs toRate req, ?_, ?_, ?_, ?_, ?_, ?_, ?_⟩
  · rw [openChannel_calls_backend]
  · rw [openChannel_calls_backend]
  · intro f h
    simp [openChannelArgs, openChannelRate, h]
  · intro t h1 h2
    simp only [openChannelArgs, openChannelRate, h1, h2]
    refine ⟨fun h => ?_, fun h3 h4 => ?_, fun h => ?_⟩
    · simp [h]
    · have : ¬ t < 3 := by omega
      simp [this, h4]
    · have h3 : ¬ t < 3 := by omega
      have h4 : ¬ t < 30 := by omega
      simp [h3, h4]
  · intro h1 h2
    simp [openChannelArgs, openChannelRate, h1, h2]
  · intro f h h0
    simp [openChannelArgs, openChannelRate, h, h0]
  · simp only [openChannelArgs, openChannelRate, ExactlyOne]
    cases h1 : req.FeeSatPerVByte with
    | some f =>
      by_cases h0 : toRate f = 0
      · simp [h0]
      · have hpos : 0 < toRate f := Nat.pos_of_ne_zero h0
        simp [h0, hpos]
    | none =>
      cases h2 : req.TargetConf with
      | none => simp
      | some t =>
        by_cases h3 : t < 3
        · simp [h3]
        · by_cases h4 : t < 30
          · simp [h3, h4]
          · simp [h3, h4]

theorem openChannel_fee_rate_priority_witness :
    sampleOpenRequest.FeeSatPerVByte = some 2 ∧ sampleOpenRequest.TargetConf = some 6 ∧
    ∃ args : FundChannelArgs,
      (sampleFundingClient.OpenChannel sampleToRate sampleNewHash sampleNewOutPoint
        sampleOpenRequest).1 = [RpcCall.fundChannelExt args] ∧
      (sampleFundingClient.OpenChannel sampleToRate sampleNewHash sampleNewOutPoint
        sampleOpenRequest).2 = .ok { Hash := { bytes := [0xfe, 0xca] }, Index := 1 } ∧
      args.feerate = some
        { Rate := 2000, Style := FeeRateStyle.PerKb, Directive := FeeDirective.Normal } := by
  obtain ⟨args, h0, h1, h2, _⟩ :=
    openChannel_fee_rate_priority sampleFundingClient sampleToRate sampleNewHash
      sampleNewOutPoint sampleOpenRequest
  exact ⟨rfl, rfl, args, h0, h1.trans rfl, h2 2 rfl⟩

/-- C3 (counterexample): for the request with the explicit fee rate 0 the rate
passed to the backend is the Normal directive, the same value as for a request
without explicit rate and with a target of 10 blocks; so the explicit rate
carries a directive, and two of the outcomes the claim lists occur at once. -/
theorem openChannel_zero_rate_is_normal_directive :
    zeroRateRequest.FeeSatPerVByte = some 0 ∧
    normalTargetRequest.FeeSatPerVByte = none ∧ normalTargetRequest.TargetConf = some 10 ∧
    (sampleFundingClient.OpenChannel sampleToRate sampleNewHash sampleNewOutPoint
      zeroRateRequest).1 =
        [RpcCall.fundChannelExt (openChannelArgs sampleToRate zeroRateRequest)] ∧
    (openChannelArgs sampleToRate zeroRateRequest).feerate =
      some { Rate := 0, Style := FeeRateStyle.PerKb, Directive := FeeDirective.Normal } ∧
    (openChannelArgs sampleToRate zeroRateRequest).feerate =
      (openChannelArgs sampleToRate normalTargetRequest).feerate ∧
    ¬ ExactlyOne
      (claimedFeeRateOutcomes (openChannelArgs sampleToRate zeroRateRequest).feerate) := by
  refine ⟨rfl, rfl, rfl, rfl, by decide, by decide, ?_⟩
  have hrate : (openChannelArgs sampleToRate zeroRateRequest).feerate =
      some { Rate := 0, Style := FeeRateStyle.PerKb, Directive := FeeDirective.Normal } := by
    decide
  rw [hrate]
  simp only [claimedFeeRateOutcomes, ExactlyOne]
  intro h
  rcases h with ⟨_, hnone⟩ | ⟨hno, _⟩
  · exact hnone True (by simp) trivial
  · exact hno ⟨0, rfl⟩

theorem foldl_count_eq_countP (p : PeerChannel → Prop) [DecidablePred p]
    (l : List PeerChannel) (n : Nat) :
    l.foldl (fun count ch => if p ch then count + 1 else count) n =
      n + l.countP (fun ch => decide (p ch)) := by
  induction l generalizing n with
  | nil => simp
  | cons ch rest ih =>
    rw [List.foldl_cons, ih, List.countP_cons]
    by_cases h : p ch
    · simp [h]
      omega
    · simp [h]

/-- C8: for every peer channel list `GetNodeChannelCount` returns exactly the
number of channels whose state is `CHANNELD_NORMAL`, `OPENINGD` or
`CHANNELD_AWAITING_LOCKIN`, with no error; the result is at most the number of
the peer's channels; when the peer lookup fails it returns 0 with the error. -/
theorem getNodeChannelCount_open_pending (c : ClnClient) (nodeID : List UInt8) :
    (∀ peer : Peer, c.GetPeer (hexEncode nodeID) = .ok peer →
      c.GetNodeChannelCount nodeID =
        (peer.Channels.countP (fun ch => decide (ch.State = "CHANNELD_NORMAL" ∨
          ch.State = "OPENINGD" ∨ ch.State = "CHANNELD_AWAITING_LOCKIN")), none) ∧
      0 ≤ (c.GetNodeChannelCount nodeID).1 ∧
      (c.GetNodeChannelCount nodeID).1 ≤ peer.Channels.length) ∧
    (∀ err : Error, c.GetPeer (hexEncode nodeID) = .error err →
      c.GetNodeChannelCount nodeID = (0, some err)) := by
  constructor
  · intro peer h
    have key : c.GetNodeChannelCount nodeID =
        (peer.Channels.countP (fun ch => decide (ch.State = "CHANNELD_NORMAL" ∨
          ch.State = "OPENINGD" ∨ ch.State = "CHANNELD_AWAITING_LOCKIN")), none) := by
      simp only [ClnClient.GetNodeChannelCount, h]
      rw [foldl_count_eq_countP]
      simp [OPEN_STATUSES, PENDING_STATUSES]
    refine ⟨key, Nat.zero_le _, ?_⟩
    rw [key]
    exact List.countP_le_length _
  · intro err h
    simp [ClnClient.GetNodeChannelCount, h]

theorem getNodeChannelCount_open_pending_witness :
    (clientWith sampleCountChannels).GetPeer (hexEncode [0xab, 0x01]) =
      .ok { Channels := sampleCountChannels } ∧
    (clientWith sampleCountChannels).GetNodeChannelCount [0xab, 0x01] = (2, none) :=
  ⟨rfl, ((getNodeChannelCount_open_pending (clientWith sampleCountChannels) [0xab, 0x01]).1
    { Channels := sampleCountChannels } rfl).1.trans (by decide)⟩


theorem closingLookup_mem (parseScid : String → Option ShortChannelID)
    (channels : List PeerChannel) (init : GoMap) (k : String) :
    k ∈ channels.foldl (closingLookupStep parseScid) init ↔
      k ∈ init ∨ ∃ ch ∈ channels, ch.State ∈ CLOSING_STATUSES ∧
        ∃ cid, parseScid ch.ShortChannelId = some cid ∧
          k = formatChannelPoint ch.FundingTxId (cid &&& 0xFFFFFF) := by
  induction channels generalizing init with
  | nil => simp
  | cons ch rest ih =>
    rw [List.foldl_cons, ih]
    unfold closingLookupStep
    by_cases hs : ch.State ∈ CLOSING_STATUSES
    · cases hp : parseScid ch.ShortChannelId with
      | none => simp [hs, hp]
      | some cid =>
        simp only [hs, hp, if_true, AList.mem_insert, List.mem_cons, exists_eq_or_imp,
          true_and, Option.some.injEq, exists_eq_left']
        tauto
    · simp [hs]

theorem keepFold_lookup (lookup : GoMap) (l : List (Sigma fun _ : String => Nat)) (r : GoMap)
    (hnd : l.NodupKeys) (hdisj : ∀ e ∈ l, r.lookup e.1 = none) (k : String) :
    (l.foldl (fun r a => if ¬ (lookup.lookup a.1).isSome then r.insert a.1 a.2 else r) r).lookup k =
      match r.lookup k with
      | some v => some v
      | none => if (lookup.lookup k).isSome then none else l.dlookup k := by
  induction l generalizing r with
  | nil =>
    cases h : r.lookup k <;> simp [h]
  | cons e rest ih =>
    obtain ⟨hnot, hrest⟩ := List.nodupKeys_cons.mp hnd
    have hne : ∀ e2 ∈ rest, e2.1 ≠ e.1 := by
      intro e2 he2 heq
      exact hnot (heq ▸ List.mem_keys_of_mem he2)
    have he : r.lookup e.1 = none := hdisj e (List.mem_cons_self _ _)
    rw [List.foldl_cons]
    by_cases hb : (lookup.lookup e.1).isSome
    · -- the key is in the lookup map: the entry is dropped
      rw [if_neg (not_not.mpr hb),
        ih r hrest (fun e2 he2 => hdisj e2 (List.mem_cons_of_mem _ he2))]
      cases hk : r.lookup k with
      | some v => rfl
      | none =>
        by_cases hke : k = e.1
        · subst hke
          simp [hb]
        · simp only [List.dlookup_cons_ne _ _ hke]
    · -- the key is not in the lookup map: the entry is copied
      rw [if_pos hb, ih (r.insert e.1 e.2) hrest (fun e2 he2 => by
        rw [AList.lookup_insert_ne (hne e2 he2)]
        exact hdisj e2 (List.mem_cons_of_mem _ he2))]
      by_cases hke : k = e.1
      · subst hke
        rw [AList.lookup_insert, he]
        simp only [if_neg hb]
        cases e with
        | mk a b => exact (List.dlookup_cons_eq rest a b).symm
      · rw [AList.lookup_insert_ne hke]
        cases hk : r.lookup k with
        | some v => rfl
        | none => simp only [List.dlookup_cons_ne _ _ hke]

theorem closedChannels_lookup (parseScid : String → Option ShortChannelID)
    (channels : List PeerChannel) (channelPoints : GoMap) (k : String) :
    (channelPoints.foldl
        (fun (r : GoMap) c h =>
          if ¬ ((channels.foldl (closingLookupStep parseScid) ∅).lookup c).isSome
          then r.insert c h else r) ∅).lookup k =
      if ((channels.foldl (closingLookupStep parseScid) ∅).lookup k).isSome then none
      else channelPoints.lookup k := by
  unfold AList.foldl
  rw [keepFold_lookup _ channelPoints.entries ∅ channelPoints.nodupKeys
    (fun _ _ => AList.lookup_empty _) k]
  simp [AList.lookup]

theorem getClosedChannels_ok (c : ClnClient) (parseScid : String → Option ShortChannelID)
    (nodeID : String) (channelPoints : GoMap) (peer : Peer)
    (hne : channelPoints.entries ≠ []) (hpeer : c.GetPeer nodeID = .ok peer) :
    ∃ r : GoMap,
      c.GetClosedChannels parseScid nodeID channelPoints = ([RpcCall.getPeer nodeID], .ok r) ∧
      ∀ k, r.lookup k =
        if ((peer.Channels.foldl (closingLookupStep parseScid) ∅).lookup k).isSome then none
        else channelPoints.lookup k := by
  have hlen : ¬ channelPoints.entries.length = 0 := fun h => hne (List.length_eq_zero.mp h)
  refine ⟨_, ?_, closedChannels_lookup parseScid peer.Channels channelPoints⟩
  simp only [ClnClient.GetClosedChannels, hlen, if_false, hpeer]

/-- C6: `GetClosedChannels` is a set difference. For a non-empty candidate map
and a peer lookup that succeeds, the result holds exactly the candidate
entries (key and scid unchanged) whose key differs from
`<FundingTxId>:<scid & 0xFFFFFF>` for every peer channel whose state is in
`CLOSING_STATUSES` and whose short channel id parses; the node is queried
once. Every result is a sub-map of the candidates. For an empty candidate map
the result is the empty map, without error and without a query. When the peer
lookup fails its error is returned instead of a map. -/
theorem getClosedChannels_set_difference (c : ClnClient)
    (parseScid : String → Option ShortChannelID) (nodeID : String) (channelPoints : GoMap) :
    (channelPoints.entries = [] →
      c.GetClosedChannels parseScid nodeID channelPoints = ([], .ok ∅)) ∧
    (channelPoints.entries ≠ [] → ∀ err : Error, c.GetPeer nodeID = .error err →
      c.GetClosedChannels parseScid nodeID channelPoints =
        ([RpcCall.getPeer nodeID], .error err)) ∧
    (channelPoints.entries ≠ [] → ∀ peer : Peer, c.GetPeer nodeID = .ok peer →
      ∃ r : GoMap,
        c.GetClosedChannels parseScid nodeID channelPoints =
          ([RpcCall.getPeer nodeID], .ok r) ∧
        ∀ k : String,
          ((∃ ch ∈ peer.Channels, ch.State ∈ CLOSING_STATUSES ∧
              ∃ cid, parseScid ch.ShortChannelId = some cid ∧
                k = formatChannelPoint ch.FundingTxId (cid &&& 0xFFFFFF)) →
            r.lookup k = none) ∧
          ((¬ ∃ ch ∈ peer.Channels, ch.State ∈ CLOSING_STATUSES ∧
              ∃ cid, parseScid ch.ShortChannelId = some cid ∧
                k = formatChannelPoint ch.FundingTxId (cid &&& 0xFFFFFF)) →
            r.lookup k = channelPoints.lookup k)) ∧
    (∀ r : GoMap, (c.GetClosedChannels parseScid nodeID channelPoints).2 = .ok r →
      ∀ k v, r.lookup k = some v → channelPoints.lookup k = some v) := by
  have hmem : ∀ (peer : Peer) (k : String),
      ((peer.Channels.foldl (closingLookupStep parseScid) ∅).lookup k).isSome = true ↔
        ∃ ch ∈ peer.Channels, ch.State ∈ CLOSING_STATUSES ∧
          ∃ cid, parseScid ch.ShortChannelId = some cid ∧
            k = formatChannelPoint ch.FundingTxId (cid &&& 0xFFFFFF) := by
    intro peer k
    rw [AList.lookup_isSome, closingLookup_mem]
    simp [AList.not_mem_empty]
  refine ⟨?_, ?_, ?_, ?_⟩
  · intro h
    simp [ClnClient.GetClosedChannels, h]
  · intro hne err hpeer
    have hlen : ¬ channelPoints.entries.length = 0 := fun h => hne (List.length_eq_zero.mp h)
    simp only [ClnClient.GetClosedChannels, hlen, if_false, hpeer]
  · intro hne peer hpeer
    obtain ⟨r, hr, hk⟩ := getClosedChannels_ok c parseScid nodeID channelPoints peer hne hpeer
    refine ⟨r, hr, fun k => ⟨fun hex => ?_, fun hnex => ?_⟩⟩
    · rw [hk k, if_pos ((hmem peer k).mpr hex)]
    · rw [hk k, if_neg (fun h => hnex ((hmem peer k).mp h))]
  · intro r hr k v hv
    by_cases hne : channelPoints.entries = []
    · have h0 : c.GetClosedChannels parseScid nodeID channelPoints = ([], .ok ∅) := by
        simp [ClnClient.GetClosedChannels, hne]
      rw [h0] at hr
      injection hr with hr
      subst hr
      simp [AList.lookup_empty] at hv
    · cases hpeer : c.GetPeer nodeID with
      | error err =>
        have hlen : ¬ channelPoints.entries.length = 0 :=
          fun h => hne (List.length_eq_zero.mp h)
        simp [ClnClient.GetClosedChannels, hlen, hpeer] at hr
      | ok peer =>
        obtain ⟨r2, hr2, hk⟩ :=
          getClosedChannels_ok c parseScid nodeID channelPoints peer hne hpeer
        rw [hr2] at hr
        injection hr with hr
        subst hr
        rw [hk k] at hv
        by_cases hb : ((peer.Channels.foldl (closingLookupStep parseScid) ∅).lookup k).isSome
        · simp [hb] at hv
        · simpa [hb] using hv

theorem getClosedChannels_set_difference_witness :
    ∃ r : GoMap,
      (clientWith scenarioChannels).GetClosedChannels NewShortChannelIDFromString "02aa"
        scenarioCandidates = ([RpcCall.getPeer "02aa"], .ok r) ∧
      r.lookup (txidA ++ ":0") = none ∧
      r.lookup (txidB ++ ":1") = some 2199023255553 ∧
      ∀ k v, r.lookup k = some v → scenarioCandidates.lookup k = some v := by
  have h := getClosedChannels_set_difference (clientWith scenarioChannels)
    NewShortChannelIDFromString "02aa" scenarioCandidates
  obtain ⟨r, hr, hk⟩ := h.2.2.1 (by decide) { Channels := scenarioChannels } rfl
  refine ⟨r, hr, (hk (txidA ++ ":0")).1 ?_, ?_, h.2.2.2 r (by rw [hr])⟩
  · exact ⟨mkChannel "CHANNELD_SHUTTING_DOWN" "1x0x0" "" txidA, by decide, by decide,
      1099511627776, by decide, by decide⟩
  · rw [(hk (txidB ++ ":1")).2 ?_]
    · decide
    · rintro ⟨ch, hmem, hstate, cid, hparse, hkey⟩
      simp only [scenarioChannels, List.mem_cons, List.mem_singleton, List.not_mem_nil,
        or_false] at hmem
      rcases hmem with rfl | rfl
      · have hcid : cid = 1099511627776 := by
          have h2 : NewShortChannelIDFromString "1x0x0" = some 1099511627776 := by decide
          have h3 : NewShortChannelIDFromString "1x0x0" = some cid := hparse
          rw [h2] at h3
          exact (Option.some.inj h3).symm
        subst hcid
        revert hkey
        decide
      · revert hstate
        decide

/-- C1: the node reports channel A with funding txid `txidA`, short channel id
`1x1x0` (output index 0) and state `CHANNELD_SHUTTING_DOWN`, and the candidate
keyed `txidA:0` is still in the result of `GetClosedChannels`: the key computed
for channel A is `txidA:65536`, the low 24 bits of the scid. -/
theorem getClosedChannels_keeps_closing_channel :
    scidFields "1x1x0" = some (1, 1, 0) ∧
    NewShortChannelIDFromString "1x1x0" = some 1099511693312 ∧
    "CHANNELD_SHUTTING_DOWN" ∈ CLOSING_STATUSES ∧
    formatChannelPoint txidA (1099511693312 &&& 0xFFFFFF) = txidA ++ ":65536" ∧
    ∃ r : GoMap,
      (clientWith leakChannels).GetClosedChannels NewShortChannelIDFromString "02aa"
        leakCandidates = ([RpcCall.getPeer "02aa"], .ok r) ∧
      r.lookup (txidA ++ ":0") = some 1099511693312 :=
  ⟨by decide, by decide, by decide, by decide, _, rfl, by decide⟩

theorem getChannelLoop_no_match (parseScid : String → Option ShortChannelID) (txid : String)
    (pre rest : List PeerChannel)
    (hpre : ∀ x ∈ pre, ¬ (x.State ∈ OPEN_STATUSES ∧ x.FundingTxId = txid)) :
    getChannelLoop parseScid txid (pre ++ rest) = getChannelLoop parseScid txid rest := by
  induction pre with
  | nil => rfl
  | cons x xs ih =>
    rw [List.cons_append, getChannelLoop, if_neg (hpre x (List.mem_cons_self _ _))]
    exact ih (fun y hy => hpre y (List.mem_cons_of_mem _ hy))

theorem getChannelLoop_first (parseScid : String → Option ShortChannelID) (txid : String)
    (channels : List PeerChannel) (ch : PeerChannel)
    (hfirst : IsFirstOpenChannel channels txid ch) :
    getChannelLoop parseScid txid channels =
      match parseScid ch.ShortChannelId with
      | none => .error (Error.parse ch.ShortChannelId)
      | some confirmedChanID =>
        match parseScid ch.Alias.Local with
        | none => .error (Error.parse ch.Alias.Local)
        | some initialChanID =>
          .ok { InitialChannelID := initialChanID, ConfirmedChannelID := confirmedChanID } := by
  obtain ⟨pre, post, hsplit, hpre, hstate, htx⟩ := hfirst
  rw [hsplit, getChannelLoop_no_match parseScid txid pre _ hpre, getChannelLoop,
    if_pos ⟨hstate, htx⟩]

theorem getChannelLoop_none (parseScid : String → Option ShortChannelID) (txid : String)
    (channels : List PeerChannel)
    (hnone : ∀ x ∈ channels, ¬ (x.State ∈ OPEN_STATUSES ∧ x.FundingTxId = txid)) :
    getChannelLoop parseScid txid channels = .error Error.noChannelFound := by
  have h := getChannelLoop_no_match parseScid txid channels [] hnone
  rw [List.append_nil] at h
  rw [h, getChannelLoop]

theorem first_open_or_none (txid : String) (channels : List PeerChannel) :
    (∃ ch, IsFirstOpenChannel channels txid ch) ∨
      ∀ x ∈ channels, ¬ (x.State ∈ OPEN_STATUSES ∧ x.FundingTxId = txid) := by
  induction channels with
  | nil => exact Or.inr (fun x hx => absurd hx (List.not_mem_nil x))
  | cons c rest ih =>
    by_cases hc : c.State ∈ OPEN_STATUSES ∧ c.FundingTxId = txid
    · exact Or.inl ⟨c, [], rest, rfl, fun x hx => absurd hx (List.not_mem_nil x), hc.1, hc.2⟩
    · rcases ih with ⟨ch, pre, post, hsplit, hpre, hstate, htx⟩ | hnone
      · refine Or.inl ⟨ch, c :: pre, post, by rw [hsplit, List.cons_append], ?_, hstate, htx⟩
        intro x hx
        rcases List.mem_cons.mp hx with hx | hx
        · exact hx ▸ hc
        · exact hpre x hx
      · refine Or.inr (fun x hx => ?_)
        rcases List.mem_cons.mp hx with hx | hx
        · exact hx ▸ hc
        · exact hnone x hx

/-- C2 (amended): for a peer lookup that succeeds, `GetChannel` decides on the
first channel of the peer whose state is in `OPEN_STATUSES` and whose funding
txid equals the txid of `channel_point`; the output index of `channel_point`
is not compared. It succeeds exactly when that channel exists and both its
local alias and its short channel id parse, and then returns the parsed local
alias as initial scid and the parsed short channel id as confirmed scid; it
fails with `no channel found` exactly when no channel of the peer is open with
that funding txid; and it fails with the parse error when the short channel id
or the local alias of that first channel does not parse. -/
theorem getChannel_first_open_channel (c : ClnClient)
    (parseScid : String → Option ShortChannelID) (peerID : List UInt8)
    (channelPoint : OutPoint) (peer : Peer) (hpeer : c.GetPeer (hexEncode peerID) = .ok peer) :
    (∀ res : GetChannelResult, c.GetChannel parseScid peerID channelPoint = .ok res ↔
      ∃ ch, IsFirstOpenChannel peer.Channels channelPoint.Hash.String ch ∧
        parseScid ch.Alias.Local = some res.InitialChannelID ∧
        parseScid ch.ShortChannelId = some res.ConfirmedChannelID) ∧
    (c.GetChannel parseScid peerID channelPoint = .error Error.noChannelFound ↔
      ∀ ch ∈ peer.Channels,
        ¬ (ch.State ∈ OPEN_STATUSES ∧ ch.FundingTxId = channelPoint.Hash.String)) ∧
    (∀ ch, IsFirstOpenChannel peer.Channels channelPoint.Hash.String ch →
      parseScid ch.ShortChannelId = none →
      c.GetChannel parseScid peerID channelPoint = .error (Error.parse ch.ShortChannelId)) ∧
    (∀ ch, IsFirstOpenChannel peer.Channels channelPoint.Hash.String ch →
      (parseScid ch.ShortChannelId).isSome → parseScid ch.Alias.Local = none →
      c.GetChannel parseScid peerID channelPoint = .error (Error.parse ch.Alias.Local)) ∧
    (∀ index : Nat,
      c.GetChannel parseScid peerID { channelPoint with Index := index } =
        c.GetChannel parseScid peerID channelPoint) := by
  have hG : c.GetChannel parseScid peerID channelPoint =
      getChannelLoop parseScid channelPoint.Hash.String peer.Channels := by
    simp only [ClnClient.GetChannel, hpeer]
  refine ⟨fun res => ⟨fun hok => ?_, fun hex => ?_⟩, ⟨fun herr => ?_, fun hnone => ?_⟩,
    fun ch hfirst hscid => ?_, fun ch hfirst hscid halias => ?_, fun index => ?_⟩
  · rcases first_open_or_none channelPoint.Hash.String peer.Channels with ⟨ch, hfirst⟩ | hnone
    · refine ⟨ch, hfirst, ?_⟩
      rw [hG, getChannelLoop_first parseScid _ _ ch hfirst] at hok
      cases hs : parseScid ch.ShortChannelId with
      | none => simp [hs] at hok
      | some confirmed =>
        cases ha : parseScid ch.Alias.Local with
        | none => simp [hs, ha] at hok
        | some initial =>
          simp only [hs, ha, Except.ok.injEq] at hok
          subst hok
          exact ⟨rfl, rfl⟩
    · rw [hG, getChannelLoop_none parseScid _ _ hnone] at hok
      simp at hok
  · obtain ⟨ch, hfirst, ha, hs⟩ := hex
    rw [hG, getChannelLoop_first parseScid _ _ ch hfirst, hs]
    simp only [ha]
  · rcases first_open_or_none channelPoint.Hash.String peer.Channels with ⟨ch, hfirst⟩ | hnone
    · rw [hG, getChannelLoop_first parseScid _ _ ch hfirst] at herr
      cases hs : parseScid ch.ShortChannelId with
      | none => simp [hs] at herr
      | some confirmed =>
        cases ha : parseScid ch.Alias.Local with
        | none => simp [hs, ha] at herr
        | some initial => simp [hs, ha] at herr
    · exact hnone
  · rw [hG, getChannelLoop_none parseScid _ _ hnone]
  · rw [hG, getChannelLoop_first parseScid _ _ ch hfirst, hscid]
  · rw [hG, getChannelLoop_first parseScid _ _ ch hfirst]
    cases hs : parseScid ch.ShortChannelId with
    | none => simp [hs] at hscid
    | some confirmed => simp only [halias]
  · simp only [ClnClient.GetChannel]

theorem getChannel_first_open_channel_witness :
    (clientWith openChannels).GetPeer (hexEncode [0xab, 0x01]) = .ok { Channels := openChannels } ∧
    (clientWith openChannels).GetChannel NewShortChannelIDFromString [0xab, 0x01]
      { Hash := hashA, Index := 7 } =
        .ok { InitialChannelID := 2199023386626, ConfirmedChannelID := 1099511693312 } :=
  ⟨rfl,
    ((getChannel_first_open_channel (clientWith openChannels) NewShortChannelIDFromString
      [0xab, 0x01] { Hash := hashA, Index := 7 } { Channels := openChannels } rfl).1
      { InitialChannelID := 2199023386626, ConfirmedChannelID := 1099511693312 }).mpr
      ⟨mkChannel "CHANNELD_NORMAL" "1x1x0" "2x2x2" txidA,
        ⟨[], [], rfl, fun x hx => absurd hx (List.not_mem_nil x), by decide, by decide⟩,
        by decide, by decide⟩⟩

/-- C2 (counterexample): the contract as stated fails on two inputs. When the
peer has an open channel at the requested outpoint whose local alias does not
parse, the call neither succeeds nor fails with `no channel found`. When the
peer has an open channel funded by output 0 of a transaction, the call for
output 7 of that transaction succeeds although the peer has no channel at
that outpoint. -/
theorem getChannel_spec_fails :
    ¬ GetChannelSpec (clientWith badAliasChannels) NewShortChannelIDFromString [0xab, 0x01]
        { Hash := hashA, Index := 0 } ∧
    ¬ GetChannelSpec (clientWith openChannels) NewShortChannelIDFromString [0xab, 0x01]
        { Hash := hashA, Index := 7 } := by
  constructor
  · intro h
    obtain ⟨_, _, h3⟩ := h { Channels := badAliasChannels } rfl
    have hres : (clientWith badAliasChannels).GetChannel NewShortChannelIDFromString
        [0xab, 0x01] { Hash := hashA, Index := 0 } = .error (Error.parse "not-an-scid") := rfl
    rw [hres] at h3
    have := h3 (by simp)
    simp at this
  · intro h
    obtain ⟨h1, _, _⟩ := h { Channels := openChannels } rfl
    have hres : (clientWith openChannels).GetChannel NewShortChannelIDFromString
        [0xab, 0x01] { Hash := hashA, Index := 7 } =
          .ok { InitialChannelID := 2199023386626, ConfirmedChannelID := 1099511693312 } := rfl
    obtain ⟨ch, hmem, _, _, hidx⟩ := h1.mp ⟨_, hres⟩
    simp only [openChannels, List.mem_singleton] at hmem
    subst hmem
    revert hidx
    decide

end Lspd
